import Mathlib

/-!
Shallow embedding of the taxonomy-cache-backed labeling engine of
`cs747` (`src/cs747/uniprot.py`): the taxonomy cache, the
`TaxonomyDatabaseBuilder.populate` loop, the `Labeler` classification
cascade, and the balanced-sampling pass.  Python dictionaries are
modelled as insertion-ordered association lists (keys unique), Python
exceptions as `Except PyErr`, and Python's negative list indexing
explicitly.
-/

namespace CS747

/-- Kinds of Python exceptions that the modelled code can raise.
`keyError` is a dict access miss (`self.tax_db[organism_id]`),
`indexError` an out-of-range list index, `fileNotFoundError` a missing
file on `open`, `valueError` the pandas error on an oversized
`sample` request. -/
inductive PyErr where
  | keyError
  | indexError
  | fileNotFoundError
  | valueError
deriving DecidableEq, Repr

/-- One entry of the `lineage` array of a Uniprot taxonomy JSON
response: the code reads only its `scientificName` field. -/
structure LineageEntry where
  scientificName : String
deriving DecidableEq, Repr

/-- A taxonomy DB entry, as returned by `lookup_uniprot_organism`:
the code reads only `entry['lineage']`. -/
structure TaxonomyRecord where
  lineage : List LineageEntry
deriving DecidableEq, Repr

/-- Organism identifiers are plain strings. -/
abbrev OrganismId := String

/-- The taxonomy cache: the Python dict `organism_id -> entry`,
modelled as an insertion-ordered association list. -/
abbrev TaxCache := List (OrganismId × TaxonomyRecord)

/-- Dict lookup `db[oid]` / membership `oid in db`: first binding of
the key, if any. -/
def lookupDb (db : TaxCache) (oid : OrganismId) : Option TaxonomyRecord :=
  (db.find? (fun p => p.1 == oid)).map Prod.snd

/-- Python list indexing `l[i]` with negative-index semantics:
`l[i]` is `l[i + len(l)]` for `i < 0`, and raises `IndexError` when
the resolved position is out of range. -/
def pyGet (l : List String) (i : Int) : Except PyErr String :=
  let j : Int := if i < 0 then i + l.length else i
  if h : 0 ≤ j ∧ j < (l.length : Int) then
    .ok (l.get ⟨j.toNat, by omega⟩)
  else
    .error .indexError

/-- `Labeler.lineage_by_name`: `[t['scientificName'] for t in
entry['lineage']]`, raising `KeyError` when the organism id is not in
the cache. -/
def lineage_by_name (db : TaxCache) (oid : OrganismId) :
    Except PyErr (List String) :=
  match lookupDb db oid with
  | none => .error .keyError
  | some entry => .ok (entry.lineage.map (·.scientificName))

/-- `Labeler.has_lineage`: membership test when `tax_rank` is `None`,
indexed equality otherwise. -/
def has_lineage (db : TaxCache) (oid : OrganismId) (tax_name : String)
    (tax_rank : Option Int) : Except PyErr Bool := do
  let lineage ← lineage_by_name db oid
  match tax_rank with
  | none => pure (lineage.contains tax_name)
  | some r => do
      let x ← pyGet lineage r
      pure (x == tax_name)

/-- `Labeler.is_virus`. -/
def is_virus (db : TaxCache) (oid : OrganismId) : Except PyErr Bool :=
  has_lineage db oid "Viruses" (some (-1))

/-- `Labeler.is_cellular_organism`. -/
def is_cellular_organism (db : TaxCache) (oid : OrganismId) :
    Except PyErr Bool :=
  has_lineage db oid "cellular organisms" (some (-1))

/-- `Labeler.is_eukaryote`. -/
def is_eukaryote (db : TaxCache) (oid : OrganismId) : Except PyErr Bool := do
  let c ← is_cellular_organism db oid
  if c then has_lineage db oid "Eukaryota" (some (-2)) else pure false

/-- `Labeler.is_bacteria`. -/
def is_bacteria (db : TaxCache) (oid : OrganismId) : Except PyErr Bool := do
  let c ← is_cellular_organism db oid
  if c then has_lineage db oid "Bacteria" (some (-2)) else pure false

/-- `Labeler.is_archaea`. -/
def is_archaea (db : TaxCache) (oid : OrganismId) : Except PyErr Bool := do
  let c ← is_cellular_organism db oid
  if c then has_lineage db oid "Archaea" (some (-2)) else pure false

/-- `Labeler.is_viridiplantae`. -/
def is_viridiplantae (db : TaxCache) (oid : OrganismId) :
    Except PyErr Bool := do
  let e ← is_eukaryote db oid
  if e then has_lineage db oid "Viridiplantae" none else pure false

/-- `Labeler.is_fungi`. -/
def is_fungi (db : TaxCache) (oid : OrganismId) : Except PyErr Bool := do
  let e ← is_eukaryote db oid
  if e then has_lineage db oid "Fungi" none else pure false

/-- `Labeler.is_chordata`. -/
def is_chordata (db : TaxCache) (oid : OrganismId) : Except PyErr Bool := do
  let e ← is_eukaryote db oid
  if e then has_lineage db oid "Chordata" none else pure false

/-- `Labeler.is_metazoa`, with Python's short-circuit
`is_eukaryote(...) and not is_chordata(...)`. -/
def is_metazoa (db : TaxCache) (oid : OrganismId) : Except PyErr Bool := do
  let e ← is_eukaryote db oid
  if e then do
    let c ← is_chordata db oid
    if c then pure false else has_lineage db oid "Metazoa" none
  else pure false

/-- `Labeler.label_organism`: the ordered `if/elif` cascade with
`"Eukaryota"` as the final `else`. -/
def label_organism (db : TaxCache) (oid : OrganismId) :
    Except PyErr String := do
  let v ← is_virus db oid
  if v then pure "Viruses" else do
  let b ← is_bacteria db oid
  if b then pure "Bacteria" else do
  let a ← is_archaea db oid
  if a then pure "Archaea" else do
  let p ← is_viridiplantae db oid
  if p then pure "Viridiplantae" else do
  let f ← is_fungi db oid
  if f then pure "Fungi" else do
  let c ← is_chordata db oid
  if c then pure "Chordata" else do
  let m ← is_metazoa db oid
  if m then pure "Metazoa" else
  pure "Eukaryota"

/-- The fixed closed enumeration of labels (spec §3, §4.4). -/
def eightLabels : List String :=
  ["Viruses", "Bacteria", "Archaea", "Viridiplantae",
   "Fungi", "Chordata", "Metazoa", "Eukaryota"]

/-! ### Spec-side pure classifier (spec §4.4)

A second, total rendering of the helper predicates and the cascade,
written from the spec's wording ("rank at position -1 is the most
general (root) rank, -2 the next level down"; first match wins,
`Eukaryota` as fallback), used to state the refinement claim that the
code's `label_organism` computes exactly this pure function of the
lineage.  Indices out of range read a default, so these are total;
the refinement theorem only relates them to the code on lineages long
enough for the code's indexed accesses. -/

/-- Spec predicate `is_virus`: rank at position -1 is `"Viruses"`. -/
def specIsVirus (l : List String) : Bool :=
  l.getD (l.length - 1) "" == "Viruses"

/-- Spec predicate `is_cellular`. -/
def specIsCellular (l : List String) : Bool :=
  l.getD (l.length - 1) "" == "cellular organisms"

/-- Spec predicate `is_eukaryote`. -/
def specIsEukaryote (l : List String) : Bool :=
  specIsCellular l && (l.getD (l.length - 2) "" == "Eukaryota")

/-- Spec predicate `is_bacteria`. -/
def specIsBacteria (l : List String) : Bool :=
  specIsCellular l && (l.getD (l.length - 2) "" == "Bacteria")

/-- Spec predicate `is_archaea`. -/
def specIsArchaea (l : List String) : Bool :=
  specIsCellular l && (l.getD (l.length - 2) "" == "Archaea")

/-- Spec predicate `is_viridiplantae`. -/
def specIsViridiplantae (l : List String) : Bool :=
  specIsEukaryote l && l.contains "Viridiplantae"

/-- Spec predicate `is_fungi`. -/
def specIsFungi (l : List String) : Bool :=
  specIsEukaryote l && l.contains "Fungi"

/-- Spec predicate `is_chordata`. -/
def specIsChordata (l : List String) : Bool :=
  specIsEukaryote l && l.contains "Chordata"

/-- Spec predicate `is_metazoa`. -/
def specIsMetazoa (l : List String) : Bool :=
  specIsEukaryote l && !(specIsChordata l) && l.contains "Metazoa"

/-- The spec's classification cascade, first match wins, evaluated in
the fixed order 1..7 with `"Eukaryota"` as fallback. -/
def specClassify (l : List String) : String :=
  if specIsVirus l then "Viruses"
  else if specIsBacteria l then "Bacteria"
  else if specIsArchaea l then "Archaea"
  else if specIsViridiplantae l then "Viridiplantae"
  else if specIsFungi l then "Fungi"
  else if specIsChordata l then "Chordata"
  else if specIsMetazoa l then "Metazoa"
  else "Eukaryota"

/-! ### The cache builder (`TaxonomyDatabaseBuilder`) -/

/-- The state of one `populate` run: the in-memory dict `self.db`, the
loop counters `count` and `prev_count`, and observation logs of the
run's effects: every remote `lookup_uniprot_organism` call, every
`self.save()` snapshot, and every checkpoint progress message
(`entry_count = count - prev_count`). -/
structure BuildState where
  db : TaxCache
  count : Nat
  prevCount : Nat
  fetches : List OrganismId
  saves : List TaxCache
  progress : List Nat
deriving DecidableEq, Repr

/-- One iteration of the `populate` loop body for one `organism_id`:
fetch-and-insert on a cache miss, then the checkpoint save when
`count > prev_count and count % save_interval == 0`.  `fetch` models
`lookup_uniprot_organism`. -/
def populateStep (fetch : OrganismId → TaxonomyRecord) (saveInterval : Nat)
    (s : BuildState) (oid : OrganismId) : BuildState :=
  let s1 :=
    if (lookupDb s.db oid).isNone then
      { s with
        db := s.db ++ [(oid, fetch oid)]
        count := s.count + 1
        fetches := s.fetches ++ [oid] }
    else s
  if s1.count > s1.prevCount && s1.count % saveInterval == 0 then
    { s1 with
      saves := s1.saves ++ [s1.db]
      progress := s1.progress ++ [s1.count - s1.prevCount]
      prevCount := s1.count }
  else s1

/-- The initial state of a `populate` run over the cache `db0` loaded
by `init_db`. -/
def initState (db0 : TaxCache) : BuildState :=
  { db := db0, count := 0, prevCount := 0,
    fetches := [], saves := [], progress := [] }

/-- The `for organism_id in seq_df['organism_id']` loop. -/
def populateLoop (fetch : OrganismId → TaxonomyRecord) (saveInterval : Nat)
    (s : BuildState) (input : List OrganismId) : BuildState :=
  input.foldl (populateStep fetch saveInterval) s

/-- `TaxonomyDatabaseBuilder.populate`: the loop followed by the final
unconditional `self.save()`. -/
def populate (fetch : OrganismId → TaxonomyRecord) (saveInterval : Nat)
    (db0 : TaxCache) (input : List OrganismId) : BuildState :=
  let s := populateLoop fetch saveInterval (initState db0) input
  { s with saves := s.saves ++ [s.db] }

/-! ### Snapshot load and `init_db` -/

/-- The durable snapshot: either a file holding a cache, or no file. -/
abbrev Snapshot := Option TaxCache

/-- `load_taxonomy_db` via `TaxonomyDatabaseBuilder.load`: `open`
raises `FileNotFoundError` when the snapshot file is absent. -/
def load_snapshot (fs : Snapshot) : Except PyErr TaxCache :=
  match fs with
  | some c => .ok c
  | none => .error .fileNotFoundError

/-- `TaxonomyDatabaseBuilder.init_db`: when `recreate` is `False`, try
to load and catch `FileNotFoundError`; whenever no DB was loaded,
start from the empty dict. -/
def init_db (fs : Snapshot) (recreate : Bool) : TaxCache :=
  let db : Option TaxCache :=
    if recreate = false then
      match load_snapshot fs with
      | .ok loaded => some loaded
      | .error _ => none
    else none
  match db with
  | some loaded => loaded
  | none => []

/-! ### The `save` write path

`TaxonomyDatabaseBuilder.save` is `open(self.db_file_path, 'wb')`
followed by `pickle.dump(self.db, db_file)`.  We model the observable
file-system effects of that call as a sequence of primitive
operations: opening with mode `'wb'` truncates the file in place,
then the dump writes the serialized cache.  `FileState` is what a
reader of the backing file observes between operations. -/

/-- What a reader of the backing file can observe. -/
inductive FileState where
  /-- No file exists at the path. -/
  | absent
  /-- The file exists but does not hold a complete snapshot (it was
  truncated by `open(..., 'wb')` and the dump has not completed). -/
  | truncated
  /-- The file holds the complete serialized snapshot `c`. -/
  | full (c : TaxCache)
deriving DecidableEq, Repr

/-- Primitive file operations issued by `save`. -/
inductive FsOp where
  /-- `open(path, 'wb')`: truncate the file in place. -/
  | openTrunc
  /-- `pickle.dump` completing: the file now holds snapshot `c`. -/
  | writeAll (c : TaxCache)
deriving DecidableEq, Repr

/-- The observable effect of one file operation. -/
def applyOp : FileState → FsOp → FileState
  | _, .openTrunc => .truncated
  | _, .writeAll c => .full c

/-- The sequence of file operations performed by
`TaxonomyDatabaseBuilder.save` for a cache `db`: truncate, then
write. -/
def save_ops (db : TaxCache) : List FsOp :=
  [.openTrunc, .writeAll db]

/-- The file state after a prefix of `k` operations of a save of `db`
over a prior file state: what a reader observes if the save stops (or
is observed) after `k` operations. -/
def saveStateAfter (prior : FileState) (db : TaxCache) (k : Nat) : FileState :=
  ((save_ops db).take k).foldl applyOp prior

/-! ### The balancer (`generate_balanced_data`) -/

/-- One labeled sequence record.  Only the `label` column drives the
balancer; `uid` stands for the remaining columns and keeps records
distinguishable. -/
structure SeqRecord where
  uid : String
  label : String
deriving DecidableEq, Repr

/-- Python's `round` on an exact rational: round half to even. -/
def pyRound (q : ℚ) : ℤ :=
  let f := ⌊q⌋
  let r := q - f
  if r < 1 / 2 then f
  else if 1 / 2 < r then f + 1
  else if f % 2 = 0 then f else f + 1

/-- The distinct labels of a data set, the group keys of
`data.groupby(header)`. -/
def labelsOf (data : List SeqRecord) : List String :=
  (data.map (·.label)).dedup

/-- The members of one label group. -/
def groupOf (data : List SeqRecord) (l : String) : List SeqRecord :=
  data.filter (·.label == l)

/-- `generate_balanced_data`:
`sample_size = round(frac_population * len(data))`, then
`data.groupby(header).sample(sample_size)`.  `pick l g n` models the
random draw of `n` rows without replacement from group `g` of label
`l` (a `DataFrameGroupBy.sample` draw); pandas raises a `ValueError`
when some group has fewer than `sample_size` rows. -/
def generate_balanced_data
    (pick : String → List SeqRecord → Nat → List SeqRecord)
    (data : List SeqRecord) (frac_population : ℚ) :
    Except PyErr (List SeqRecord) :=
  let sample_size := (pyRound (frac_population * data.length)).toNat
  if (labelsOf data).all (fun l => sample_size ≤ (groupOf data l).length) then
    .ok ((labelsOf data).flatMap (fun l => pick l (groupOf data l) sample_size))
  else .error .valueError

/-! ### Invariants of one `populate` run -/

/-- Invariant of the `populate` loop relating the state after
processing the ids `processed` to the loaded cache `db0`: the cache
holds exactly the initially present ids plus the processed ones, and
the remote client was called exactly once per processed id that was
not initially cached. -/
def FetchInv (db0 : TaxCache) (processed : List OrganismId)
    (s : BuildState) : Prop :=
  (∀ oid, (lookupDb s.db oid).isSome ↔
      ((lookupDb db0 oid).isSome ∨ oid ∈ processed))
  ∧ (∀ oid, s.fetches.count oid =
      if (lookupDb db0 oid).isSome then 0
      else if oid ∈ processed then 1 else 0)

/-- Checkpoint invariant of the `populate` loop for interval `k`:
`prev_count` is the last multiple of `k` reached, one checkpoint save
and one progress message of `k` entries were emitted per multiple. -/
def CkptInv (k : Nat) (s : BuildState) : Prop :=
  s.prevCount = k * s.saves.length
  ∧ s.prevCount ≤ s.count
  ∧ s.count < s.prevCount + k
  ∧ s.progress = List.replicate s.saves.length k

/-! ### Concrete fixture inputs (used by the witnesses) -/

/-- Equality of classifier results is decidable (used to evaluate the
embedding on the fixture inputs). -/
instance : DecidableEq (Except PyErr String) := fun a b =>
  match a, b with
  | .ok x, .ok y =>
      if h : x = y then isTrue (by rw [h]) else isFalse (by simp [h])
  | .error x, .error y =>
      if h : x = y then isTrue (by rw [h]) else isFalse (by simp [h])
  | .ok _, .error _ => isFalse (by simp)
  | .error _, .ok _ => isFalse (by simp)

/-- A fixture taxonomy cache covering the eight labels and the short
lineages, with lineages ordered most specific first as in the Uniprot
responses the code consumes. -/
def egDb : TaxCache :=
  [("654924", ⟨[⟨"Frog virus 3"⟩, ⟨"Viruses"⟩]⟩),
   ("224308", ⟨[⟨"Bacillus"⟩, ⟨"Bacteria"⟩, ⟨"cellular organisms"⟩]⟩),
   ("399549", ⟨[⟨"Metallosphaera"⟩, ⟨"Archaea"⟩, ⟨"cellular organisms"⟩]⟩),
   ("39947", ⟨[⟨"Oryza"⟩, ⟨"Viridiplantae"⟩, ⟨"Eukaryota"⟩,
               ⟨"cellular organisms"⟩]⟩),
   ("559292", ⟨[⟨"Saccharomyces"⟩, ⟨"Fungi"⟩, ⟨"Eukaryota"⟩,
               ⟨"cellular organisms"⟩]⟩),
   ("9606", ⟨[⟨"Homo"⟩, ⟨"Metazoa"⟩, ⟨"Chordata"⟩, ⟨"Eukaryota"⟩,
               ⟨"cellular organisms"⟩]⟩),
   ("7227", ⟨[⟨"Drosophila"⟩, ⟨"Metazoa"⟩, ⟨"Eukaryota"⟩,
               ⟨"cellular organisms"⟩]⟩),
   ("44689", ⟨[⟨"Dictyostelium"⟩, ⟨"Eukaryota"⟩, ⟨"cellular organisms"⟩]⟩),
   ("empty", ⟨[]⟩),
   ("cellonly", ⟨[⟨"cellular organisms"⟩]⟩),
   ("other", ⟨[⟨"weird"⟩]⟩)]

/-- A fixture remote client. -/
def egFetch (oid : OrganismId) : TaxonomyRecord :=
  ⟨[⟨oid⟩, ⟨"cellular organisms"⟩]⟩

/-- A fixture input id sequence with duplicates. -/
def egInput : List OrganismId := ["9606", "7227", "9606", "10090"]

/-- A deterministic stand-in for the group sampler: draw the first
`n` rows of the group. -/
def pick0 (_ : String) (g : List SeqRecord) (n : Nat) : List SeqRecord :=
  g.take n

/-- A fixture labeled data set: two labels with two records each. -/
def egData : List SeqRecord :=
  [⟨"a", "Viruses"⟩, ⟨"b", "Viruses"⟩, ⟨"c", "Chordata"⟩, ⟨"d", "Chordata"⟩]

end CS747

namespace CS747

lemma pyGet_neg1 (l : List String) (h : 1 ≤ l.length) :
    pyGet l (-1) = .ok (l.getD (l.length - 1) "") := by
  have hj : ((-1 : Int) + l.length).toNat = l.length - 1 := by omega
  simp only [pyGet]
  rw [dif_pos (by constructor <;> omega)]
  congr 1
  rw [List.getD_eq_getElem l "" (by omega)]
  simp [List.get_eq_getElem, hj]

lemma pyGet_neg2 (l : List String) (h : 2 ≤ l.length) :
    pyGet l (-2) = .ok (l.getD (l.length - 2) "") := by
  have hj : ((-2 : Int) + l.length).toNat = l.length - 2 := by omega
  simp only [pyGet]
  rw [dif_pos (by constructor <;> omega)]
  congr 1
  rw [List.getD_eq_getElem l "" (by omega)]
  simp [List.get_eq_getElem, hj]

end CS747

namespace CS747

lemma is_virus_ok {db oid names} (h : lineage_by_name db oid = .ok names)
    (hn : 1 ≤ names.length) :
    is_virus db oid = .ok (specIsVirus names) := by
  simp [is_virus, has_lineage, h, pyGet_neg1 names hn, specIsVirus,
    Bind.bind, Except.bind, pure, Except.pure]

lemma is_cellular_ok {db oid names} (h : lineage_by_name db oid = .ok names)
    (hn : 1 ≤ names.length) :
    is_cellular_organism db oid = .ok (specIsCellular names) := by
  simp [is_cellular_organism, has_lineage, h, pyGet_neg1 names hn, specIsCellular,
    Bind.bind, Except.bind, pure, Except.pure]

end CS747

namespace CS747

lemma is_eukaryote_ok {db oid names} (h : lineage_by_name db oid = .ok names)
    (hn : 2 ≤ names.length) :
    is_eukaryote db oid = .ok (specIsEukaryote names) := by
  have h1 : 1 ≤ names.length := by omega
  simp only [is_eukaryote, is_cellular_ok h h1, Bind.bind, Except.bind, specIsEukaryote]
  cases hc : specIsCellular names with
  | true =>
      simp [has_lineage, h, pyGet_neg2 names hn, Bind.bind, Except.bind, pure, Except.pure]
  | false =>
      simp [pure, Except.pure]

lemma is_bacteria_ok {db oid names} (h : lineage_by_name db oid = .ok names)
    (hn : 2 ≤ names.length) :
    is_bacteria db oid = .ok (specIsBacteria names) := by
  have h1 : 1 ≤ names.length := by omega
  simp only [is_bacteria, is_cellular_ok h h1, Bind.bind, Except.bind, specIsBacteria]
  cases hc : specIsCellular names with
  | true =>
      simp [has_lineage, h, pyGet_neg2 names hn, Bind.bind, Except.bind, pure, Except.pure]
  | false =>
      simp [pure, Except.pure]

lemma is_archaea_ok {db oid names} (h : lineage_by_name db oid = .ok names)
    (hn : 2 ≤ names.length) :
    is_archaea db oid = .ok (specIsArchaea names) := by
  have h1 : 1 ≤ names.length := by omega
  simp only [is_archaea, is_cellular_ok h h1, Bind.bind, Except.bind, specIsArchaea]
  cases hc : specIsCellular names with
  | true =>
      simp [has_lineage, h, pyGet_neg2 names hn, Bind.bind, Except.bind, pure, Except.pure]
  | false =>
      simp [pure, Except.pure]

lemma is_viridiplantae_ok {db oid names} (h : lineage_by_name db oid = .ok names)
    (hn : 2 ≤ names.length) :
    is_viridiplantae db oid = .ok (specIsViridiplantae names) := by
  simp only [is_viridiplantae, is_eukaryote_ok h hn, Bind.bind, Except.bind,
    specIsViridiplantae]
  cases he : specIsEukaryote names with
  | true => simp [has_lineage, h, Bind.bind, Except.bind, pure, Except.pure]
  | false => simp [pure, Except.pure]

lemma is_fungi_ok {db oid names} (h : lineage_by_name db oid = .ok names)
    (hn : 2 ≤ names.length) :
    is_fungi db oid = .ok (specIsFungi names) := by
  simp only [is_fungi, is_eukaryote_ok h hn, Bind.bind, Except.bind, specIsFungi]
  cases he : specIsEukaryote names with
  | true => simp [has_lineage, h, Bind.bind, Except.bind, pure, Except.pure]
  | false => simp [pure, Except.pure]

lemma is_chordata_ok {db oid names} (h : lineage_by_name db oid = .ok names)
    (hn : 2 ≤ names.length) :
    is_chordata db oid = .ok (specIsChordata names) := by
  simp only [is_chordata, is_eukaryote_ok h hn, Bind.bind, Except.bind, specIsChordata]
  cases he : specIsEukaryote names with
  | true => simp [has_lineage, h, Bind.bind, Except.bind, pure, Except.pure]
  | false => simp [pure, Except.pure]

lemma is_metazoa_ok {db oid names} (h : lineage_by_name db oid = .ok names)
    (hn : 2 ≤ names.length) :
    is_metazoa db oid = .ok (specIsMetazoa names) := by
  simp only [is_metazoa, is_eukaryote_ok h hn, is_chordata_ok h hn,
    Bind.bind, Except.bind, specIsMetazoa]
  cases he : specIsEukaryote names with
  | true =>
      cases hc : specIsChordata names with
      | true => simp [pure, Except.pure]
      | false => simp [has_lineage, h, Bind.bind, Except.bind, pure, Except.pure]
  | false => simp [pure, Except.pure]

lemma label_organism_ok {db oid names} (h : lineage_by_name db oid = .ok names)
    (hn : 2 ≤ names.length) :
    label_organism db oid = .ok (specClassify names) := by
  simp only [label_organism, specClassify,
    is_virus_ok h (by omega), is_bacteria_ok h hn, is_archaea_ok h hn,
    is_viridiplantae_ok h hn, is_fungi_ok h hn, is_chordata_ok h hn,
    is_metazoa_ok h hn, Bind.bind, Except.bind, pure, Except.pure]
  split_ifs <;> simp_all

end CS747

namespace CS747

lemma specClassify_mem (l : List String) : specClassify l ∈ eightLabels := by
  unfold specClassify eightLabels
  split_ifs <;> simp

lemma specIsVirus_of_getLast {names : List String}
    (hv : names.getLast? = some "Viruses") : specIsVirus names = true := by
  rw [List.getLast?_eq_getElem?] at hv
  simp [specIsVirus, List.getD_eq_getElem?_getD, hv]

lemma label_organism_virus {db oid names} (h : lineage_by_name db oid = .ok names)
    (hv : names.getLast? = some "Viruses") :
    label_organism db oid = .ok "Viruses" := by
  have hne : names ≠ [] := by
    intro he; rw [he] at hv; simp at hv
  have hn : 1 ≤ names.length := by
    cases names with
    | nil => exact absurd rfl hne
    | cons a t => simp
  simp [label_organism, is_virus_ok h hn, specIsVirus_of_getLast hv,
    Bind.bind, Except.bind, pure, Except.pure]

lemma label_organism_congr {db₁ db₂ : TaxCache} {oid : OrganismId}
    (h : lookupDb db₁ oid = lookupDb db₂ oid) :
    label_organism db₁ oid = label_organism db₂ oid := by
  have hl : lineage_by_name db₁ oid = lineage_by_name db₂ oid := by
    simp [lineage_by_name, h]
  simp only [label_organism, is_virus, is_bacteria, is_archaea, is_viridiplantae,
    is_fungi, is_chordata, is_metazoa, is_eukaryote, is_cellular_organism,
    has_lineage, hl]

lemma label_organism_missing {db oid} (h : lookupDb db oid = none) :
    label_organism db oid = .error .keyError := by
  simp [label_organism, is_virus, has_lineage, lineage_by_name, h,
    Bind.bind, Except.bind]

lemma pyGet_nil (i : Int) : pyGet [] i = .error .indexError := by
  unfold pyGet
  rw [dif_neg]
  simp

lemma pyGet_single_neg2 (x : String) : pyGet [x] (-2) = .error .indexError := by
  unfold pyGet
  rw [dif_neg]
  simp

lemma label_organism_nil {db oid e} (h : lookupDb db oid = some e)
    (he : e.lineage = []) : label_organism db oid = .error .indexError := by
  have hl : lineage_by_name db oid = .ok [] := by
    simp [lineage_by_name, h, he]
  simp [label_organism, is_virus, has_lineage, hl, pyGet_nil,
    Bind.bind, Except.bind]

lemma label_organism_single_cellular {db oid e} (h : lookupDb db oid = some e)
    (he : e.lineage.map (·.scientificName) = ["cellular organisms"]) :
    label_organism db oid = .error .indexError := by
  have hl : lineage_by_name db oid = .ok ["cellular organisms"] := by
    simp [lineage_by_name, h, he]
  simp [label_organism, is_virus, is_bacteria, is_cellular_organism, has_lineage, hl,
    pyGet_neg1 ["cellular organisms"] (by simp), pyGet_single_neg2,
    Bind.bind, Except.bind, pure, Except.pure]

lemma label_organism_single_other {db oid e x} (h : lookupDb db oid = some e)
    (he : e.lineage.map (·.scientificName) = [x])
    (hx1 : x ≠ "Viruses") (hx2 : x ≠ "cellular organisms") :
    label_organism db oid = .ok "Eukaryota" := by
  have hl : lineage_by_name db oid = .ok [x] := by
    simp [lineage_by_name, h, he]
  have hb1 : (x == "Viruses") = false := by simp [hx1]
  have hb2 : (x == "cellular organisms") = false := by simp [hx2]
  simp [label_organism, is_virus, is_bacteria, is_archaea, is_viridiplantae,
    is_fungi, is_chordata, is_metazoa, is_eukaryote, is_cellular_organism,
    has_lineage, hl, pyGet_neg1 [x] (by simp), hb1, hb2,
    Bind.bind, Except.bind, pure, Except.pure]

end CS747

namespace CS747

lemma lookupDb_append (db : TaxCache) (k : OrganismId) (v : TaxonomyRecord)
    (oid : OrganismId) :
    lookupDb (db ++ [(k, v)]) oid =
      match lookupDb db oid with
      | some r => some r
      | none => if k == oid then some v else none := by
  induction db with
  | nil =>
      simp only [List.nil_append, lookupDb]
      cases hk : (k == oid) <;> simp [List.find?, hk]
  | cons p t ih =>
      simp only [List.cons_append, lookupDb] at ih ⊢
      cases hp : (p.1 == oid) with
      | true => simp [List.find?_cons, hp]
      | false =>
          simp only [List.find?_cons, hp]
          cases hfind : List.find? (fun q => q.1 == oid) t with
          | none =>
              simp only [hfind] at ih
              cases hk : (k == oid) <;>
                simp_all [List.find?_append, Option.or]
          | some q =>
              simp only [hfind] at ih
              simp_all [List.find?_append, Option.or]

lemma lookupDb_append_some {db : TaxCache} {oid : OrganismId}
    {r : TaxonomyRecord} (k : OrganismId) (v : TaxonomyRecord)
    (h : lookupDb db oid = some r) :
    lookupDb (db ++ [(k, v)]) oid = some r := by
  rw [lookupDb_append, h]

lemma lookupDb_append_isSome (db : TaxCache) (k : OrganismId)
    (v : TaxonomyRecord) (oid : OrganismId) :
    (lookupDb (db ++ [(k, v)]) oid).isSome =
      ((lookupDb db oid).isSome || k == oid) := by
  rw [lookupDb_append]
  cases h : lookupDb db oid with
  | none => cases hk : (k == oid) <;> simp [hk]
  | some r => simp

lemma populateStep_db (f : OrganismId → TaxonomyRecord) (k : Nat)
    (s : BuildState) (oid : OrganismId) :
    (populateStep f k s oid).db =
      if (lookupDb s.db oid).isNone then s.db ++ [(oid, f oid)] else s.db := by
  simp only [populateStep]
  split <;> split <;> rfl

lemma populateStep_fetches (f : OrganismId → TaxonomyRecord) (k : Nat)
    (s : BuildState) (oid : OrganismId) :
    (populateStep f k s oid).fetches =
      if (lookupDb s.db oid).isNone then s.fetches ++ [oid] else s.fetches := by
  simp only [populateStep]
  split <;> split <;> rfl

lemma populateStep_count (f : OrganismId → TaxonomyRecord) (k : Nat)
    (s : BuildState) (oid : OrganismId) :
    (populateStep f k s oid).count =
      if (lookupDb s.db oid).isNone then s.count + 1 else s.count := by
  simp only [populateStep]
  split <;> split <;> rfl

end CS747

namespace CS747

lemma populateLoop_cons (f : OrganismId → TaxonomyRecord) (k : Nat)
    (s : BuildState) (a : OrganismId) (t : List OrganismId) :
    populateLoop f k s (a :: t) = populateLoop f k (populateStep f k s a) t := by
  rfl

lemma populateLoop_preserves (f : OrganismId → TaxonomyRecord) (k : Nat)
    {s : BuildState} {oid : OrganismId} {r : TaxonomyRecord}
    (input : List OrganismId) (h : lookupDb s.db oid = some r) :
    lookupDb (populateLoop f k s input).db oid = some r := by
  induction input generalizing s with
  | nil => exact h
  | cons a t ih =>
      rw [populateLoop_cons]
      apply ih
      rw [populateStep_db]
      split
      · exact lookupDb_append_some a (f a) h
      · exact h

lemma populateLoop_allHit (f : OrganismId → TaxonomyRecord) (k : Nat)
    (input : List OrganismId) (s : BuildState)
    (hall : ∀ oid ∈ input, (lookupDb s.db oid).isSome)
    (hc : s.count ≤ s.prevCount) :
    populateLoop f k s input = s := by
  induction input with
  | nil => rfl
  | cons a t ih =>
      have ha : ¬((lookupDb s.db a).isNone = true) := by
        have := hall a (by simp)
        simp [Option.isNone_iff_eq_none]
        intro hnone
        rw [hnone] at this
        simp at this
      have hstep : populateStep f k s a = s := by
        simp only [populateStep]
        rw [if_neg ha, if_neg]
        simp only [Bool.and_eq_true, decide_eq_true_eq, not_and]
        intro hgt
        omega
      rw [populateLoop_cons, hstep]
      exact ih (fun oid ho => hall oid (by simp [ho]))

end CS747

namespace CS747

lemma mem_append_singleton_of_ne {x oid : OrganismId} {pr : List OrganismId}
    (hx : x ≠ oid) : (x ∈ pr ++ [oid]) ↔ x ∈ pr := by
  rw [List.mem_append, List.mem_singleton]
  constructor
  · rintro (h | h)
    · exact h
    · exact absurd h hx
  · exact Or.inl

lemma fetchInv_step (f : OrganismId → TaxonomyRecord) (k : Nat)
    {db0 : TaxCache} {pr : List OrganismId} {s : BuildState}
    (oid : OrganismId) (h : FetchInv db0 pr s) :
    FetchInv db0 (pr ++ [oid]) (populateStep f k s oid) := by
  obtain ⟨h1, h2⟩ := h
  by_cases hmiss : lookupDb s.db oid = none
  · have hmiss' : (lookupDb s.db oid).isNone = true := by simp [hmiss]
    have hdb : (populateStep f k s oid).db = s.db ++ [(oid, f oid)] := by
      rw [populateStep_db, if_pos hmiss']
    have hfet : (populateStep f k s oid).fetches = s.fetches ++ [oid] := by
      rw [populateStep_fetches, if_pos hmiss']
    have hnot : ¬((lookupDb db0 oid).isSome = true ∨ oid ∈ pr) := by
      intro hcon
      have := (h1 oid).2 hcon
      rw [hmiss] at this
      simp at this
    constructor
    · intro x
      rw [hdb, lookupDb_append_isSome]
      by_cases hx : x = oid
      · subst hx
        simp [List.mem_append]
      · have hb : (oid == x) = false := by
          simp
          exact fun he => hx he.symm
        rw [hb]
        simp only [Bool.or_false, h1 x, mem_append_singleton_of_ne hx]
    · intro x
      rw [hfet, List.count_append]
      by_cases hx : x = oid
      · subst hx
        have hns : (lookupDb db0 x).isSome = false := by
          cases hbs : (lookupDb db0 x).isSome with
          | false => rfl
          | true => exact absurd (Or.inl hbs) hnot
        have hnp : x ∉ pr := fun hc => hnot (Or.inr hc)
        rw [h2 x]
        simp [hns, hnp, List.mem_append]
      · have hcx : List.count x [oid] = 0 := by
          rw [List.count_singleton']
          simp
          exact fun he => hx he.symm
        rw [h2 x, hcx]
        simp only [mem_append_singleton_of_ne hx, Nat.add_zero]
  · have hsome : (lookupDb s.db oid).isSome = true :=
      Option.ne_none_iff_isSome.1 hmiss
    have hmiss' : (lookupDb s.db oid).isNone = false := by
      cases hbs : lookupDb s.db oid with
      | none => exact absurd hbs hmiss
      | some w => rfl
    have hdb : (populateStep f k s oid).db = s.db := by
      rw [populateStep_db, hmiss']
      simp
    have hfet : (populateStep f k s oid).fetches = s.fetches := by
      rw [populateStep_fetches, hmiss']
      simp
    have hdisj : (lookupDb db0 oid).isSome = true ∨ oid ∈ pr := (h1 oid).1 hsome
    constructor
    · intro x
      rw [hdb]
      by_cases hx : x = oid
      · subst hx
        simp only [hsome, true_iff, List.mem_append, List.mem_singleton]
        rcases hdisj with hd | hd
        · exact Or.inl hd
        · exact Or.inr (Or.inl hd)
      · rw [h1 x]
        simp only [mem_append_singleton_of_ne hx]
    · intro x
      rw [hfet, h2 x]
      by_cases hx : x = oid
      · subst hx
        cases hbs : (lookupDb db0 x).isSome with
        | true => simp [hbs]
        | false =>
            have hp : x ∈ pr := by
              rcases hdisj with hd | hd
              · rw [hbs] at hd
                exact absurd hd (by simp)
              · exact hd
            simp [hbs, hp, List.mem_append]
      · simp only [mem_append_singleton_of_ne hx]

lemma fetchInv_init (db0 : TaxCache) : FetchInv db0 [] (initState db0) := by
  constructor
  · intro x
    simp [initState]
  · intro x
    simp [initState]

lemma fetchInv_loop (f : OrganismId → TaxonomyRecord) (k : Nat)
    {db0 : TaxCache} (input : List OrganismId) (pr : List OrganismId)
    (s : BuildState) (h : FetchInv db0 pr s) :
    FetchInv db0 (pr ++ input) (populateLoop f k s input) := by
  induction input generalizing pr s with
  | nil => simpa using h
  | cons a t ih =>
      rw [populateLoop_cons]
      have h' := fetchInv_step f k a h
      have := ih (pr ++ [a]) (populateStep f k s a) h'
      simpa [List.append_assoc] using this

end CS747

namespace CS747

lemma ckptInv_init (k : Nat) (hk : 0 < k) (db0 : TaxCache) :
    CkptInv k (initState db0) := by
  refine ⟨by simp [initState], by simp [initState], by simp [initState]; omega, by simp [initState]⟩

lemma ckptInv_step (f : OrganismId → TaxonomyRecord) (k : Nat) (hk : 0 < k)
    {s : BuildState} (oid : OrganismId) (h : CkptInv k s) :
    CkptInv k (populateStep f k s oid) := by
  obtain ⟨h1, h2, h3, h4⟩ := h
  by_cases hmiss : (lookupDb s.db oid).isNone = true
  · simp only [populateStep, if_pos hmiss]
    by_cases hcond : s.count + 1 = s.prevCount + k
    · have hmod : (s.count + 1) % k = 0 := by
        rw [hcond, h1, ← Nat.mul_succ _ ]
        exact Nat.mul_mod_right k _
      rw [if_pos]
      · refine ⟨?_, ?_, ?_, ?_⟩
        · simp only [List.length_append, List.length_singleton]
          rw [Nat.mul_succ]
          omega
        · simp
        · simp
          omega
        · simp only [h4, h1]
          have : s.count + 1 - k * s.saves.length = k := by omega
          rw [this, List.length_append, List.length_singleton,
            ← List.replicate_succ']
      · simp only [Bool.and_eq_true, decide_eq_true_eq, beq_iff_eq]
        exact ⟨by omega, hmod⟩
    · have hlt : s.count + 1 < s.prevCount + k := by omega
      have hmod : (s.count + 1) % k ≠ 0 := by
        have hr : s.count + 1 = k * s.saves.length + (s.count + 1 - s.prevCount) := by
          omega
        rw [hr, Nat.mul_add_mod]
        rw [Nat.mod_eq_of_lt (by omega)]
        omega
      rw [if_neg]
      · exact ⟨h1, by simp; omega, by simp; omega, h4⟩
      · simp only [Bool.and_eq_true, decide_eq_true_eq, beq_iff_eq, not_and]
        intro _
        exact hmod
  · simp only [populateStep, if_neg hmiss]
    by_cases hgt : s.count > s.prevCount
    · have hmod : s.count % k ≠ 0 := by
        have hr : s.count = k * s.saves.length + (s.count - s.prevCount) := by
          omega
        rw [hr, Nat.mul_add_mod]
        rw [Nat.mod_eq_of_lt (by omega)]
        omega
      rw [if_neg]
      · exact ⟨h1, h2, h3, h4⟩
      · simp only [Bool.and_eq_true, decide_eq_true_eq, beq_iff_eq, not_and]
        intro _
        exact hmod
    · rw [if_neg]
      · exact ⟨h1, h2, h3, h4⟩
      · simp only [Bool.and_eq_true, decide_eq_true_eq, not_and]
        intro hc
        exact absurd hc hgt

lemma ckptInv_loop (f : OrganismId → TaxonomyRecord) (k : Nat) (hk : 0 < k)
    (input : List OrganismId) (s : BuildState) (h : CkptInv k s) :
    CkptInv k (populateLoop f k s input) := by
  induction input generalizing s with
  | nil => exact h
  | cons a t ih =>
      rw [populateLoop_cons]
      exact ih _ (ckptInv_step f k hk a h)

end CS747

namespace CS747

lemma lookupDb_eq_none_iff (db : TaxCache) (oid : OrganismId) :
    lookupDb db oid = none ↔ oid ∉ db.map Prod.fst := by
  simp only [lookupDb, Option.map_eq_none', List.find?_eq_none, List.mem_map,
    beq_iff_eq]
  constructor
  · intro h hmem
    obtain ⟨p, hp, hfst⟩ := hmem
    exact h p hp hfst
  · intro h p hp hfst
    exact h ⟨p, hp, hfst⟩

lemma populateStep_keys_nodup (f : OrganismId → TaxonomyRecord) (k : Nat)
    (s : BuildState) (oid : OrganismId)
    (h : (s.db.map Prod.fst).Nodup) :
    ((populateStep f k s oid).db.map Prod.fst).Nodup := by
  rw [populateStep_db]
  split
  · next hmiss =>
      have hnone : lookupDb s.db oid = none := by
        rwa [← Option.isNone_iff_eq_none]
      rw [List.map_append]
      simp only [List.map_cons, List.map_nil]
      rw [List.nodup_append]
      refine ⟨h, List.nodup_singleton oid, ?_⟩
      intro x hx hx'
      rw [List.mem_singleton] at hx'
      subst hx'
      exact (lookupDb_eq_none_iff s.db x).1 hnone hx
  · exact h

lemma populateLoop_keys_nodup (f : OrganismId → TaxonomyRecord) (k : Nat)
    (input : List OrganismId) (s : BuildState)
    (h : (s.db.map Prod.fst).Nodup) :
    (((populateLoop f k s input).db.map Prod.fst)).Nodup := by
  induction input generalizing s with
  | nil => exact h
  | cons a t ih =>
      rw [populateLoop_cons]
      exact ih _ (populateStep_keys_nodup f k s a h)

end CS747

namespace CS747

lemma groupOf_label {data : List SeqRecord} {l : String} {r : SeqRecord}
    (h : r ∈ groupOf data l) : r.label = l := by
  have := List.of_mem_filter h
  simpa using this

lemma labelsOf_nodup (data : List SeqRecord) : (labelsOf data).Nodup :=
  List.nodup_dedup _

lemma flatMap_filter_eq (L : List String) (hN : L.Nodup) (l : String)
    (hl : l ∈ L) (F : String → List SeqRecord)
    (hF : ∀ l' ∈ L, ∀ r ∈ F l', r.label = l') :
    (L.flatMap F).filter (fun r => r.label == l) = F l := by
  induction L with
  | nil => simp at hl
  | cons a t ih =>
      rw [List.flatMap_cons, List.filter_append]
      have hna : a ∉ t := (List.nodup_cons.1 hN).1
      rcases List.mem_cons.1 hl with he | hlt
      · have hft : (t.flatMap F).filter (fun r => r.label == l) = [] := by
          rw [List.filter_eq_nil_iff]
          intro r hr
          obtain ⟨l', hl', hrF⟩ := List.mem_flatMap.1 hr
          have hrl : r.label = l' := hF l' (List.mem_cons_of_mem _ hl') r hrF
          have hne : l' ≠ l := fun h2 => hna (by rw [← he, ← h2]; exact hl')
          simp [hrl, hne]
        have hfa : (F a).filter (fun r => r.label == l) = F a :=
          List.filter_eq_self.2
            (fun r hr => by simp [hF a (List.mem_cons_self a t) r hr, he])
        rw [hfa, hft, List.append_nil, he]
      · have hne : a ≠ l := fun he => hna (he ▸ hlt)
        have hfa : (F a).filter (fun r => r.label == l) = [] := by
          rw [List.filter_eq_nil_iff]
          intro r hr
          simp [hF a (List.mem_cons_self a t) r hr, hne]
        rw [hfa, List.nil_append]
        exact ih (List.nodup_cons.1 hN).2 hlt
          (fun l' h' => hF l' (List.mem_cons_of_mem _ h'))

lemma flatMap_length_const (L : List String) (F : String → List SeqRecord)
    (n : Nat) (hF : ∀ l ∈ L, (F l).length = n) :
    (L.flatMap F).length = L.length * n := by
  induction L with
  | nil => simp
  | cons a t ih =>
      rw [List.flatMap_cons, List.length_append, hF a (List.mem_cons_self a t),
        ih (fun l hl => hF l (List.mem_cons_of_mem _ hl)), List.length_cons]
      ring

end CS747

namespace CS747

lemma populate_db (f : OrganismId → TaxonomyRecord) (k : Nat)
    (db0 : TaxCache) (input : List OrganismId) :
    (populate f k db0 input).db =
      (populateLoop f k (initState db0) input).db := rfl

lemma populate_fetches (f : OrganismId → TaxonomyRecord) (k : Nat)
    (db0 : TaxCache) (input : List OrganismId) :
    (populate f k db0 input).fetches =
      (populateLoop f k (initState db0) input).fetches := rfl

lemma populate_count (f : OrganismId → TaxonomyRecord) (k : Nat)
    (db0 : TaxCache) (input : List OrganismId) :
    (populate f k db0 input).count =
      (populateLoop f k (initState db0) input).count := rfl

lemma populate_progress (f : OrganismId → TaxonomyRecord) (k : Nat)
    (db0 : TaxCache) (input : List OrganismId) :
    (populate f k db0 input).progress =
      (populateLoop f k (initState db0) input).progress := rfl

lemma populate_saves (f : OrganismId → TaxonomyRecord) (k : Nat)
    (db0 : TaxCache) (input : List OrganismId) :
    (populate f k db0 input).saves =
      (populateLoop f k (initState db0) input).saves ++
        [(populateLoop f k (initState db0) input).db] := rfl

/-- C1: for every organism id present in the taxonomy cache whose
lineage is long enough for the indexed predicates, `label_organism`
returns exactly the label computed by the spec's ordered first-match
cascade (so exactly one label of the fixed 8-value enumeration, a
pure function of the lineage); and any lineage whose last (root)
entry is `"Viruses"` is labeled `"Viruses"` regardless of the rest. -/
theorem claim_c1_classification_cascade (db : TaxCache) (oid : OrganismId)
    (e : TaxonomyRecord) (h : lookupDb db oid = some e) :
    (2 ≤ e.lineage.length →
      label_organism db oid =
        .ok (specClassify (e.lineage.map (·.scientificName)))
      ∧ specClassify (e.lineage.map (·.scientificName)) ∈ eightLabels)
    ∧ ((e.lineage.map (·.scientificName)).getLast? = some "Viruses" →
      label_organism db oid = .ok "Viruses") := by
  have hl : lineage_by_name db oid = .ok (e.lineage.map (·.scientificName)) := by
    simp [lineage_by_name, h]
  constructor
  · intro hn
    have hn' : 2 ≤ (e.lineage.map (·.scientificName)).length := by
      simpa using hn
    exact ⟨label_organism_ok hl hn', specClassify_mem _⟩
  · intro hv
    exact label_organism_virus hl hv

/-- Witness for C1 on the fixture cache: a Bacillus lineage labels
`"Bacteria"`, and a lineage rooted in `"Viruses"` labels
`"Viruses"`. -/
theorem claim_c1_witness :
    label_organism egDb "224308" = .ok "Bacteria"
    ∧ label_organism egDb "654924" = .ok "Viruses" := by
  constructor
  · have h := claim_c1_classification_cascade egDb "224308"
      ⟨[⟨"Bacillus"⟩, ⟨"Bacteria"⟩, ⟨"cellular organisms"⟩]⟩ (by rfl)
    have h2 := h.1 (by decide)
    rw [h2.1]
    decide
  · have h := claim_c1_classification_cascade egDb "654924"
      ⟨[⟨"Frog virus 3"⟩, ⟨"Viruses"⟩]⟩ (by rfl)
    exact h.2 (by decide)

/-- C5: classifying an organism id with no cache entry fails with the
dict-miss error (`KeyError`, the code's realization of
`MissingLineageError`) rather than returning a label; and
`label_organism` reads only the cache entry of the id: its result is
determined by `lookupDb`, with no remote fetch in its call graph. -/
theorem claim_c5_missing_lineage_error (db : TaxCache) (oid : OrganismId)
    (h : lookupDb db oid = none) :
    label_organism db oid = .error .keyError
    ∧ ∀ db1 db2 x, lookupDb db1 x = lookupDb db2 x →
        label_organism db1 x = label_organism db2 x :=
  ⟨label_organism_missing h,
   fun _ _ _ h12 => label_organism_congr h12⟩

/-- Witness for C5: an id absent from the fixture cache errors with
the dict-miss error. -/
theorem claim_c5_witness :
    label_organism egDb "402880" = .error .keyError :=
  (claim_c5_missing_lineage_error egDb "402880" (by rfl)).1

/-- C10: classification is partial on short lineages: an empty
lineage fails with `IndexError` (the -1 access in `is_virus`), the
one-element lineage `["cellular organisms"]` fails with `IndexError`
(the -2 access in `is_bacteria`), and any other one-element lineage
not ending in `"Viruses"` falls through every predicate to the
fallback `"Eukaryota"`. -/
theorem claim_c10_short_lineages (db : TaxCache) (oid : OrganismId)
    (e : TaxonomyRecord) (h : lookupDb db oid = some e) :
    (e.lineage = [] → label_organism db oid = .error .indexError)
    ∧ (e.lineage.map (·.scientificName) = ["cellular organisms"] →
        label_organism db oid = .error .indexError)
    ∧ (∀ x, e.lineage.map (·.scientificName) = [x] → x ≠ "Viruses" →
        x ≠ "cellular organisms" → label_organism db oid = .ok "Eukaryota") :=
  ⟨fun he => label_organism_nil h he,
   fun he => label_organism_single_cellular h he,
   fun x he hx1 hx2 => label_organism_single_other h he hx1 hx2⟩

/-- Witness for C10 on the fixture cache: the three short-lineage
behaviors at concrete entries. -/
theorem claim_c10_witness :
    label_organism egDb "empty" = .error .indexError
    ∧ label_organism egDb "cellonly" = .error .indexError
    ∧ label_organism egDb "other" = .ok "Eukaryota" := by
  refine ⟨?_, ?_, ?_⟩
  · exact (claim_c10_short_lineages egDb "empty" ⟨[]⟩ (by rfl)).1 rfl
  · exact (claim_c10_short_lineages egDb "cellonly"
      ⟨[⟨"cellular organisms"⟩]⟩ (by rfl)).2.1 (by rfl)
  · exact (claim_c10_short_lineages egDb "other" ⟨[⟨"weird"⟩]⟩ (by rfl)).2.2
      "weird" (by rfl) (by decide) (by decide)

end CS747

namespace CS747

/-- C2: one `populate` run calls the remote lookup exactly once per
distinct input id not already cached at the start and zero times for
cached ids; a second run over the same input from the persisted cache
makes no remote calls and leaves the cache identical. -/
theorem claim_c2_fetch_once_idempotent (f : OrganismId → TaxonomyRecord)
    (k : Nat) (hk : 0 < k) (db0 : TaxCache) (input : List OrganismId) :
    (∀ oid, (populate f k db0 input).fetches.count oid =
        (if (lookupDb db0 oid).isSome then 0
         else if oid ∈ input then 1 else 0))
    ∧ (populate f k (populate f k db0 input).db input).fetches = []
    ∧ (populate f k (populate f k db0 input).db input).db =
        (populate f k db0 input).db := by
  have hinv := fetchInv_loop f k input [] (initState db0) (fetchInv_init db0)
  rw [List.nil_append] at hinv
  obtain ⟨hkeys, hcount⟩ := hinv
  have hall : ∀ oid ∈ input,
      (lookupDb (populateLoop f k (initState db0) input).db oid).isSome := by
    intro oid ho
    exact (hkeys oid).2 (Or.inr ho)
  have hsecond :
      populateLoop f k (initState (populateLoop f k (initState db0) input).db)
        input = initState (populateLoop f k (initState db0) input).db := by
    apply populateLoop_allHit
    · intro oid ho
      exact hall oid ho
    · exact Nat.le_refl _
  refine ⟨?_, ?_, ?_⟩
  · intro oid
    rw [populate_fetches]
    exact hcount oid
  · rw [populate_fetches, populate_db, hsecond]
    rfl
  · rw [populate_db, populate_db, hsecond]
    rfl

/-- Witness for C2 at a concrete run: the duplicated id `"9606"` is
fetched once, and a second run over the persisted cache fetches
nothing. -/
theorem claim_c2_witness :
    (populate egFetch 2 [] egInput).fetches.count "9606" = 1
    ∧ (populate egFetch 2 (populate egFetch 2 [] egInput).db egInput).fetches
        = [] := by
  have h := claim_c2_fetch_once_idempotent egFetch 2 (by decide) [] egInput
  constructor
  · rw [h.1 "9606"]
    decide
  · exact h.2.1

/-- C3: after a full run from an empty cache, the last persisted
snapshot is the final cache and its key set is exactly the set of
distinct organism ids of the input, for every input and every
positive checkpoint interval. -/
theorem claim_c3_final_snapshot_complete (f : OrganismId → TaxonomyRecord)
    (k : Nat) (hk : 0 < k) (input : List OrganismId) :
    (populate f k [] input).saves.getLast? = some (populate f k [] input).db
    ∧ ∀ oid, (lookupDb (populate f k [] input).db oid).isSome ↔
        oid ∈ input := by
  have hinv := fetchInv_loop f k input [] (initState []) (fetchInv_init [])
  rw [List.nil_append] at hinv
  obtain ⟨hkeys, _⟩ := hinv
  refine ⟨?_, ?_⟩
  · rw [populate_saves, populate_db]
    exact List.getLast?_concat _
  · intro oid
    rw [populate_db]
    have h0 : lookupDb ([] : TaxCache) oid = none := rfl
    have := hkeys oid
    rw [h0] at this
    simpa using this

/-- Witness for C3 at a concrete run: the cache built from the
fixture input holds exactly its distinct ids, and the final save is
the last snapshot. -/
theorem claim_c3_witness :
    (populate egFetch 2 [] egInput).saves.getLast? =
      some (populate egFetch 2 [] egInput).db
    ∧ ((lookupDb (populate egFetch 2 [] egInput).db "9606").isSome ↔
        "9606" ∈ egInput) := by
  have h := claim_c3_final_snapshot_complete egFetch 2 (by decide) egInput
  exact ⟨h.1, h.2 "9606"⟩

/-- C4: a record present in the cache before a `populate` run is still
bound, unchanged, to its id after processing any prefix of the input
and in the final cache (a cache hit short-circuits fetch-and-insert);
and the cache keeps at most one record per id (key sets stay
duplicate-free). -/
theorem claim_c4_record_never_overwritten (f : OrganismId → TaxonomyRecord)
    (k : Nat) (hk : 0 < k) (db0 : TaxCache) (input : List OrganismId)
    (oid : OrganismId) (r : TaxonomyRecord)
    (h : lookupDb db0 oid = some r) :
    (∀ l1 l2, input = l1 ++ l2 →
      lookupDb (populateLoop f k (initState db0) l1).db oid = some r)
    ∧ lookupDb (populate f k db0 input).db oid = some r
    ∧ ((db0.map Prod.fst).Nodup →
        ((populate f k db0 input).db.map Prod.fst).Nodup) := by
  refine ⟨?_, ?_, ?_⟩
  · intro l1 l2 _
    exact populateLoop_preserves f k l1 h
  · rw [populate_db]
    exact populateLoop_preserves f k input h
  · intro hnd
    rw [populate_db]
    exact populateLoop_keys_nodup f k input (initState db0) hnd

/-- Witness for C4 at a concrete run: the pre-existing record of
`"9606"` in the fixture cache survives a run unchanged. -/
theorem claim_c4_witness :
    lookupDb (populate egFetch 2 egDb egInput).db "9606" =
      some ⟨[⟨"Homo"⟩, ⟨"Metazoa"⟩, ⟨"Chordata"⟩, ⟨"Eukaryota"⟩,
             ⟨"cellular organisms"⟩]⟩ :=
  (claim_c4_record_never_overwritten egFetch 2 (by decide) egDb egInput
    "9606" ⟨[⟨"Homo"⟩, ⟨"Metazoa"⟩, ⟨"Chordata"⟩, ⟨"Eukaryota"⟩,
             ⟨"cellular organisms"⟩]⟩ (by rfl)).2.1

/-- C7: during one `populate` run with interval `k`, the cache is
checkpointed exactly once per positive multiple of `k` reached by the
running count (`count / k` checkpoints in total, plus the final
unconditional save), and every checkpoint's progress observation is
exactly `k` entries since the previous checkpoint. -/
theorem claim_c7_checkpoint_cadence (f : OrganismId → TaxonomyRecord)
    (k : Nat) (hk : 0 < k) (db0 : TaxCache) (input : List OrganismId) :
    (populate f k db0 input).progress =
      List.replicate ((populate f k db0 input).count / k) k
    ∧ (populate f k db0 input).saves.length =
      (populate f k db0 input).count / k + 1 := by
  have hinv := ckptInv_loop f k hk input (initState db0) (ckptInv_init k hk db0)
  obtain ⟨h1, h2, h3, h4⟩ := hinv
  have hdiv : (populateLoop f k (initState db0) input).count / k =
      (populateLoop f k (initState db0) input).saves.length := by
    apply Nat.div_eq_of_lt_le
    · rw [Nat.mul_comm, ← h1]
      exact h2
    · rw [Nat.succ_mul, Nat.mul_comm, ← h1]
      exact h3
  refine ⟨?_, ?_⟩
  · rw [populate_progress, populate_count, hdiv]
    exact h4
  · rw [populate_saves, populate_count, List.length_append,
      List.length_singleton, hdiv]

/-- Witness for C7 at a concrete run: three entries are added with
interval 2, so exactly one checkpoint of 2 entries is logged and two
saves happen in total. -/
theorem claim_c7_witness :
    (populate egFetch 2 [] egInput).progress = [2]
    ∧ (populate egFetch 2 [] egInput).saves.length = 2 := by
  have h := claim_c7_checkpoint_cadence egFetch 2 (by decide) [] egInput
  constructor
  · rw [h.1]
    decide
  · rw [h.2]
    decide

end CS747

namespace CS747

/-- C6: a missing snapshot at construction is recoverable: loading
raises the file-not-found error, but `init_db` catches it and starts
from an empty cache; and a forced-fresh build (`recreate=True`)
starts from an empty cache regardless of any existing snapshot
(no load is consulted), while an existing snapshot without
`recreate` is loaded as-is. -/
theorem claim_c6_missing_snapshot_recoverable :
    load_snapshot none = .error .fileNotFoundError
    ∧ init_db none false = []
    ∧ (∀ fs, init_db fs true = [])
    ∧ (∀ c, init_db (some c) false = c) := by
  refine ⟨rfl, rfl, fun fs => ?_, fun c => rfl⟩
  cases fs <;> rfl

/-- Counterexample for C8: `save` is `open(path, 'wb')` followed by
`pickle.dump`, so after the truncating `open` and before the dump
completes the backing file is observably neither the prior complete
snapshot nor the new one — at a concrete prior snapshot and new
cache, the intermediate state is a truncated file. -/
theorem claim_c8_counterexample :
    saveStateAfter (.full egDb) (egDb ++ [("10090", egFetch "10090")]) 1 =
      .truncated
    ∧ FileState.truncated ≠ FileState.full egDb
    ∧ FileState.truncated ≠
        FileState.full (egDb ++ [("10090", egFetch "10090")]) := by
  refine ⟨rfl, ?_, ?_⟩ <;> simp

/-- C8 (amended): `save` truncates the backing file in place and then
writes the full snapshot: a completed save leaves exactly the new
full snapshot, but the observable state between the truncate and the
write is a truncated file, so a save failing partway does not
preserve the prior complete snapshot (no write-then-replace). -/
theorem claim_c8_amended (prior : FileState) (db : TaxCache) :
    saveStateAfter prior db 2 = .full db
    ∧ saveStateAfter prior db 1 = .truncated
    ∧ saveStateAfter prior db 0 = prior :=
  ⟨rfl, rfl, rfl⟩

end CS747

namespace CS747

/-- C9: with every label group large enough, the balancer returns
exactly `L * round(f * N)` records — `round(f * N)` per label, drawn
without replacement from that label's group — and errors on an
oversized sample request instead of clamping. -/
theorem claim_c9_balanced_sampling
    (pick : String → List SeqRecord → Nat → List SeqRecord)
    (hpick : ∀ l g n, n ≤ g.length →
      (pick l g n).length = n ∧ (pick l g n).Sublist g)
    (data : List SeqRecord) (frac : ℚ) (n : Nat)
    (hn : (pyRound (frac * data.length)).toNat = n) :
    ((∀ l ∈ labelsOf data, n ≤ (groupOf data l).length) →
      ∃ out, generate_balanced_data pick data frac = .ok out
        ∧ out.length = (labelsOf data).length * n
        ∧ ∀ l ∈ labelsOf data,
            out.filter (fun r => r.label == l) = pick l (groupOf data l) n
            ∧ (pick l (groupOf data l) n).length = n
            ∧ (pick l (groupOf data l) n).Sublist (groupOf data l))
    ∧ ((∃ l ∈ labelsOf data, (groupOf data l).length < n) →
      generate_balanced_data pick data frac = .error .valueError) := by
  have hgbd : generate_balanced_data pick data frac =
      if (labelsOf data).all (fun l => n ≤ (groupOf data l).length) then
        .ok ((labelsOf data).flatMap (fun l => pick l (groupOf data l) n))
      else .error .valueError := by
    simp only [generate_balanced_data, hn]
  constructor
  · intro hall
    have hcond :
        ((labelsOf data).all (fun l => n ≤ (groupOf data l).length)) = true := by
      rw [List.all_eq_true]
      intro l hl
      exact decide_eq_true (hall l hl)
    rw [hgbd, if_pos (by rw [hcond])]
    refine ⟨_, rfl, ?_, ?_⟩
    · exact flatMap_length_const _ _ n (fun l hl => (hpick l _ n (hall l hl)).1)
    · intro l hl
      refine ⟨?_, (hpick l _ n (hall l hl)).1,
        (hpick l (groupOf data l) n (hall l hl)).2⟩
      apply flatMap_filter_eq _ (labelsOf_nodup data) l hl
      intro l' hl' r hr
      have hrg : r ∈ groupOf data l' :=
        (hpick l' _ n (hall l' hl')).2.subset hr
      exact groupOf_label hrg
  · rintro ⟨l, hl, hlt⟩
    have hcond :
        ((labelsOf data).all (fun l => n ≤ (groupOf data l).length)) = false := by
      cases hb : (labelsOf data).all (fun l => n ≤ (groupOf data l).length) with
      | false => rfl
      | true =>
          rw [List.all_eq_true] at hb
          have := of_decide_eq_true (hb l hl)
          omega
    rw [hgbd]
    simp [hcond]

lemma pick0_spec : ∀ l g n, n ≤ g.length →
    (pick0 l g n).length = n ∧ (pick0 l g n).Sublist g := by
  intro l g n h
  constructor
  · simp only [pick0, List.length_take]
    omega
  · exact List.take_sublist n g

lemma egSampleSize : (pyRound ((1 / 2 : ℚ) * (egData.length : ℚ))).toNat = 2 := by
  have hlen : ((egData.length : ℚ)) = 4 := by norm_num [egData]
  rw [hlen]
  norm_num [pyRound]
  rfl

/-- Witness for C9 at a concrete data set: four records over two
labels with fraction 1/2 balance to 2 per label, 4 in total. -/
theorem claim_c9_witness :
    (∀ l ∈ labelsOf egData, 2 ≤ (groupOf egData l).length)
    ∧ ∃ out, generate_balanced_data pick0 egData (1 / 2) = .ok out
        ∧ out.length = (labelsOf egData).length * 2 := by
  constructor
  · decide
  · obtain ⟨out, h1, h2, _⟩ :=
      (claim_c9_balanced_sampling pick0 pick0_spec egData (1 / 2) 2
        egSampleSize).1 (by decide)
    exact ⟨out, h1, h2⟩

end CS747
